import Mathlib

/-!
Verification of the core logic of the neural-network playground
(`src/components/neural-network-playground.tsx`), shallowly embedded in Lean.

Conventions of the embedding:
* JS numbers are modelled as real numbers (`ℝ`).
* Each call to `Math.random()` is modelled by reading an explicit stream
  `ℕ → ℝ` of raw draws; where a property depends on the range of the draw,
  the value is assumed to lie in `[0, 1)` as `Math.random()` guarantees.
* React state is modelled as an explicit record (`TrainingState`), and the
  `setInterval` timer is modelled by a counter of live interval handles
  together with a `tick` function giving the effect of one timer firing.
-/

namespace NNViz

noncomputable section

/-! ## Definitions -/

/-- Dataset kind, the `type` field of the `Dataset` shape
(`"classification"` or `"regression"`). -/
inductive DatasetKind
  | classification
  | regression
  deriving DecidableEq

/-- The `Dataset` shape used by the component:
`{ inputs: number[][], outputs: number[][], type: ... }`. -/
structure Dataset where
  inputs : List (List ℝ)
  outputs : List (List ℝ)
  type : DatasetKind

/-- Embeds `generateDataset` (lines 56-104): the `switch (datasetType)` over
`"xor"`, `"circle"`, `"sine"` with an `xor`-shaped default case.
`randAngle i` and `randRadius i` are the two `Math.random()` draws made in
iteration `i` of the `circle` loop. -/
def generateDataset (datasetType : String) (randAngle randRadius : ℕ → ℝ) : Dataset :=
  if datasetType = "xor" then
    { inputs := [[0, 0], [0, 1], [1, 0], [1, 1]],
      outputs := [[0], [1], [1], [0]],
      type := DatasetKind.classification }
  else if datasetType = "circle" then
    { inputs := (List.range 100).map fun i =>
        [Real.cos (randAngle i * Real.pi * 2) * randRadius i,
         Real.sin (randAngle i * Real.pi * 2) * randRadius i],
      outputs := (List.range 100).map fun i => [if randRadius i < 0.5 then (1 : ℝ) else 0],
      type := DatasetKind.classification }
  else if datasetType = "sine" then
    { inputs := (List.range 100).map fun i : ℕ => [(i : ℝ) / 100 * Real.pi * 2],
      outputs := (List.range 100).map fun i : ℕ => [Real.sin ((i : ℝ) / 100 * Real.pi * 2)],
      type := DatasetKind.regression }
  else
    { inputs := [[0, 0], [0, 1], [1, 0], [1, 1]],
      outputs := [[0], [1], [1], [0]],
      type := DatasetKind.classification }

/-- The record returned for each sample by `makePredictions`
(line 191: `{ input, actual, predicted }`). -/
structure PredictionResult where
  input : List ℝ
  actual : ℝ
  predicted : ℝ

/-- Embeds `makePredictions` (lines 185-195): maps over `dataset.inputs` with index,
takes `actual = dataset.outputs[index][0]` and
`predicted = Math.min(1, Math.max(0, actual + (Math.random() * 0.3 - 0.15)))`.
`rand i` is the `Math.random()` draw made for sample `i`. -/
def makePredictions (dataset : Dataset) (rand : ℕ → ℝ) : List PredictionResult :=
  dataset.inputs.enum.map fun p =>
    { input := p.2,
      actual := (dataset.outputs.getD p.1 []).getD 0 0,
      predicted :=
        min 1 (max 0 ((dataset.outputs.getD p.1 []).getD 0 0 + (rand p.1 * 0.3 - 0.15))) }

/-! ### Network topology model (`networkConfig.layers` and its handlers) -/

/-- The `type` field of a layer (`"input" | "hidden" | "output"`). -/
inductive LayerKind
  | input
  | hidden
  | output
  deriving DecidableEq

/-- The `activation` field of a layer, when present. -/
inductive ActivationKind
  | relu
  | sigmoid
  | tanh
  | linear
  deriving DecidableEq

/-- One entry of `networkConfig.layers`: `{ type, neurons, activation? }`
(the input layer carries no activation). -/
structure Layer where
  type : LayerKind
  neurons : ℕ
  activation : Option ActivationKind
  deriving DecidableEq

/-- The initial `networkConfig.layers` (lines 18-24). -/
def defaultNetworkLayers : List Layer :=
  [{ type := LayerKind.input, neurons := 2, activation := none },
   { type := LayerKind.hidden, neurons := 4, activation := some ActivationKind.relu },
   { type := LayerKind.output, neurons := 1, activation := some ActivationKind.sigmoid }]

/-- Embeds `handleAddLayer` (lines 106-111): spreads the old list and appends a
default hidden layer at the end. -/
def handleAddLayer (layers : List Layer) : List Layer :=
  layers ++ [{ type := LayerKind.hidden, neurons := 4, activation := some ActivationKind.relu }]

/-- Embeds `handleRemoveLayer` (lines 113-123): returns unchanged if `index` is `0`
or the last position, otherwise `splice(index, 1)`. -/
def handleRemoveLayer (index : ℕ) (layers : List Layer) : List Layer :=
  if index = 0 ∨ index = layers.length - 1 then layers
  else layers.eraseIdx index

/-- The partial update passed to `handleUpdateLayer`: the fields the design
surface may change (`neurons` and/or `activation`). -/
structure LayerUpdate where
  neurons : Option ℕ
  activation : Option ActivationKind
  deriving DecidableEq

/-- The object-spread merge `{ ...layer, ...updates }` of line 127. -/
def applyLayerUpdate (l : Layer) (u : LayerUpdate) : Layer :=
  { type := l.type,
    neurons := u.neurons.getD l.neurons,
    activation := (u.activation.map some).getD l.activation }

/-- Embeds `handleUpdateLayer` (lines 125-132): replaces the layer at `index` with
the merge of its fields and the update (an out-of-range index leaves the
list unchanged). -/
def handleUpdateLayer (index : ℕ) (updates : LayerUpdate) (layers : List Layer) : List Layer :=
  match layers[index]? with
  | some l => layers.set index (applyLayerUpdate l updates)
  | none => layers

/-- The topology invariant of the spec: the first layer has kind `input`
and the last layer has kind `output`. -/
def topologyInvariant (layers : List Layer) : Prop :=
  layers.head?.map Layer.type = some LayerKind.input ∧
  layers.getLast?.map Layer.type = some LayerKind.output

instance (layers : List Layer) : Decidable (topologyInvariant layers) := by
  unfold topologyInvariant
  infer_instance

/-! ### Training-run state machine

The relevant React state of the component is the tuple
`(isTraining, trainingProgress, trainingStats, predictions)` together with
the set of live `setInterval` handles created by `startTraining`.
`activeTimers` counts the live handles: `setInterval` increments it,
`clearInterval` (which in the source only ever happens inside the tick
callback itself) decrements it. -/

/-- The mutable state of the training screen. -/
structure TrainingState where
  isTraining : Bool
  trainingProgress : ℕ
  lossStats : List ℝ
  accStats : List ℝ
  predictions : List PredictionResult
  activeTimers : ℕ

/-- The initial component state (lines 33-36): not training, progress 0,
empty stats and predictions, no timer. -/
def initialState : TrainingState :=
  { isTraining := false, trainingProgress := 0, lossStats := [], accStats := [],
    predictions := [], activeTimers := 0 }

/-- Embeds `startTraining` (lines 145-173, minus the interval callback): sets
`isTraining`, zeroes the progress, clears the stats and installs a new
interval without cancelling any existing one. -/
def startTraining (s : TrainingState) : TrainingState :=
  { s with isTraining := true, trainingProgress := 0, lossStats := [], accStats := [],
           activeTimers := s.activeTimers + 1 }

/-- One firing of the interval callback of lines 151-172, for a run with
`epochs` epochs.  A cancelled interval (`activeTimers = 0`) no longer fires.
`newProgress = prev + 1`; reaching `epochs` clears this interval and ends
the run without touching the stats, otherwise one noisy loss and accuracy
value is appended (`randLoss`/`randAcc` are the two `Math.random()` draws
of that firing, indexed by the new progress value). -/
def tick (epochs : ℕ) (randLoss randAcc : ℕ → ℝ) (s : TrainingState) : TrainingState :=
  if s.activeTimers = 0 then s
  else
    let newProgress := s.trainingProgress + 1
    if epochs ≤ newProgress then
      { s with trainingProgress := epochs, isTraining := false,
               activeTimers := s.activeTimers - 1 }
    else
      { s with trainingProgress := newProgress,
               lossStats := s.lossStats ++
                 [max 0.1 (1 - (newProgress : ℝ) / (epochs : ℝ) + randLoss newProgress * 0.1)],
               accStats := s.accStats ++
                 [min 0.98 ((newProgress : ℝ) / (epochs : ℝ) + randAcc newProgress * 0.1)] }

/-- Runs `k` successive firings of the interval. -/
def runTicks (epochs : ℕ) (randLoss randAcc : ℕ → ℝ) : ℕ → TrainingState → TrainingState
  | 0, s => s
  | k + 1, s => runTicks epochs randLoss randAcc k (tick epochs randLoss randAcc s)

/-- Embeds `stopTraining` (lines 175-177): only flips `isTraining`; the interval
is not cleared. -/
def stopTraining (s : TrainingState) : TrainingState :=
  { s with isTraining := false }

/-- Embeds `resetTraining` (lines 179-183): zeroes the progress, clears the stats
and the predictions; `isTraining` and the interval are not touched. -/
def resetTraining (s : TrainingState) : TrainingState :=
  { s with trainingProgress := 0, lossStats := [], accStats := [], predictions := [] }

/-- The `disabled` gate of the Run Predictions button (line 321):
`disabled={trainingProgress === 0}`. -/
def runPredictionsDisabled (s : TrainingState) : Bool :=
  s.trainingProgress == 0

end

/-! ## Helper lemmas -/

/-- The `i`-th prediction produced by `makePredictions`, explicitly. -/
lemma makePredictions_getElem (dataset : Dataset) (rand : ℕ → ℝ) (i : ℕ)
    (h : i < dataset.inputs.length) :
    (makePredictions dataset rand)[i]? = some
      { input := dataset.inputs.getD i [],
        actual := (dataset.outputs.getD i []).getD 0 0,
        predicted :=
          min 1 (max 0 ((dataset.outputs.getD i []).getD 0 0 + (rand i * 0.3 - 0.15))) } := by
  unfold makePredictions
  rw [List.enum_eq_enumFrom]
  simp [List.getElem?_enumFrom, List.getElem?_eq_getElem h, List.getD_eq_getElem?_getD,
    List.getElem?_eq_getElem h]

/-- Lemma: `makePredictions` yields one result per sample. -/
lemma makePredictions_length (dataset : Dataset) (rand : ℕ → ℝ) :
    (makePredictions dataset rand).length = dataset.inputs.length := by
  unfold makePredictions
  rw [List.enum_eq_enumFrom]
  simp

/-- Head of a nonempty left part of an append. -/
lemma head?_append_left {α : Type} (l₁ l₂ : List α) (h : l₁ ≠ []) :
    (l₁ ++ l₂).head? = l₁.head? := by
  cases l₁ with
  | nil => exact absurd rfl h
  | cons a t => rfl

/-- Last of an append with a nonempty right part. -/
lemma getLast?_append_right {α : Type} (l₁ l₂ : List α) (h : l₂ ≠ []) :
    (l₁ ++ l₂).getLast? = l₂.getLast? := by
  rw [List.getLast?_append]
  cases h' : l₂.getLast? with
  | some a => rfl
  | none =>
    rw [List.getLast?_eq_none_iff] at h'
    exact absurd h' h

/-- Head of a nonempty prefix. -/
lemma head?_take {α : Type} (l : List α) (i : ℕ) (h : i ≠ 0) :
    (l.take i).head? = l.head? := by
  cases l with
  | nil => simp
  | cons a t =>
    cases i with
    | zero => exact absurd rfl h
    | succ j => rfl

/-- Removing an element at a positive index keeps the head. -/
lemma head?_eraseIdx {α : Type} (l : List α) (i : ℕ) (h : i ≠ 0) :
    (l.eraseIdx i).head? = l.head? := by
  rw [List.eraseIdx_eq_take_drop_succ]
  cases l with
  | nil => simp
  | cons a t =>
    rw [head?_append_left]
    · exact head?_take _ i h
    · intro hnil
      have := congrArg List.length hnil
      simp at this
      omega

/-- Removing an element strictly before the last position keeps the last
element. -/
lemma getLast?_eraseIdx {α : Type} (l : List α) (i : ℕ) (h : i + 1 < l.length) :
    (l.eraseIdx i).getLast? = l.getLast? := by
  have hd : l.drop (i + 1) ≠ [] := by
    intro hnil
    have := congrArg List.length hnil
    simp at this
    omega
  rw [List.eraseIdx_eq_take_drop_succ, getLast?_append_right _ _ hd]
  conv_rhs => rw [← List.take_append_drop (i + 1) l]
  rw [getLast?_append_right _ _ hd]

/-- Writing back an element that is already there changes nothing. -/
lemma set_getElem?_eq {α : Type} : ∀ (l : List α) (i : ℕ) (a : α),
    l[i]? = some a → l.set i a = l := by
  intro l
  induction l with
  | nil => intro i a h; simp at h
  | cons x t ih =>
    intro i a h
    cases i with
    | zero =>
      simp at h
      simp [h]
    | succ j =>
      simp at h
      simp [ih j a h]

/-- The topology invariant only looks at the list of layer kinds. -/
lemma topologyInvariant_iff_map (layers : List Layer) :
    topologyInvariant layers ↔
      ((layers.map Layer.type).head? = some LayerKind.input ∧
       (layers.map Layer.type).getLast? = some LayerKind.output) := by
  unfold topologyInvariant
  rw [List.head?_map, List.getLast?_map]

/-- Lemma: `handleUpdateLayer` never changes the list of layer kinds. -/
lemma map_type_handleUpdateLayer (index : ℕ) (updates : LayerUpdate) (layers : List Layer) :
    (handleUpdateLayer index updates layers).map Layer.type = layers.map Layer.type := by
  unfold handleUpdateLayer
  cases h : layers[index]? with
  | none => rfl
  | some l =>
    simp only [List.map_set]
    have ht : (applyLayerUpdate l updates).type = l.type := rfl
    rw [ht]
    apply set_getElem?_eq
    rw [List.getElem?_map, h]
    rfl

/-- Lemma: `handleRemoveLayer` preserves the topology invariant. -/
lemma handleRemoveLayer_invariant (index : ℕ) (layers : List Layer)
    (h : topologyInvariant layers) :
    topologyInvariant (handleRemoveLayer index layers) := by
  unfold handleRemoveLayer
  split
  · exact h
  · rename_i hg
    push_neg at hg
    by_cases hlen : layers.length ≤ index
    · rw [List.eraseIdx_of_length_le hlen]
      exact h
    · have hlt : index + 1 < layers.length := by omega
      exact ⟨by rw [head?_eraseIdx _ _ hg.1]; exact h.1,
             by rw [getLast?_eraseIdx _ _ hlt]; exact h.2⟩

/-- Lemma: `handleUpdateLayer` preserves the topology invariant. -/
lemma handleUpdateLayer_invariant (index : ℕ) (updates : LayerUpdate) (layers : List Layer)
    (h : topologyInvariant layers) :
    topologyInvariant (handleUpdateLayer index updates layers) := by
  rw [topologyInvariant_iff_map, map_type_handleUpdateLayer]
  rw [topologyInvariant_iff_map] at h
  exact h

/-- The firings can be peeled off from the back as well. -/
lemma runTicks_succ_back (epochs : ℕ) (randLoss randAcc : ℕ → ℝ) :
    ∀ (k : ℕ) (s : TrainingState),
      runTicks epochs randLoss randAcc (k + 1) s =
        tick epochs randLoss randAcc (runTicks epochs randLoss randAcc k s) := by
  intro k
  induction k with
  | zero => intro s; rfl
  | succ j ih =>
    intro s
    show runTicks epochs randLoss randAcc (j + 1) (tick epochs randLoss randAcc s) = _
    rw [ih (tick epochs randLoss randAcc s)]
    rfl

/-- While the run is still short of its epoch count, each firing of the
single live interval advances the progress by one and appends one value to
each series. -/
lemma runTicks_midrun (epochs : ℕ) (randLoss randAcc : ℕ → ℝ) :
    ∀ (k : ℕ) (s : TrainingState),
      s.activeTimers = 1 → s.isTraining = true → s.trainingProgress + k < epochs →
      (runTicks epochs randLoss randAcc k s).activeTimers = 1 ∧
      (runTicks epochs randLoss randAcc k s).isTraining = true ∧
      (runTicks epochs randLoss randAcc k s).trainingProgress = s.trainingProgress + k ∧
      (runTicks epochs randLoss randAcc k s).lossStats.length = s.lossStats.length + k ∧
      (runTicks epochs randLoss randAcc k s).accStats.length = s.accStats.length + k ∧
      (runTicks epochs randLoss randAcc k s).predictions = s.predictions := by
  intro k
  induction k with
  | zero =>
    intro s h1 h2 h3
    exact ⟨h1, h2, by simp [runTicks], by simp [runTicks], by simp [runTicks], rfl⟩
  | succ j ih =>
    intro s h1 h2 h3
    have hlt : ¬ (epochs ≤ s.trainingProgress + 1) := by omega
    have htick : tick epochs randLoss randAcc s =
        { s with trainingProgress := s.trainingProgress + 1,
                 lossStats := s.lossStats ++
                   [max 0.1 (1 - ((s.trainingProgress + 1 : ℕ) : ℝ) / (epochs : ℝ) +
                     randLoss (s.trainingProgress + 1) * 0.1)],
                 accStats := s.accStats ++
                   [min 0.98 (((s.trainingProgress + 1 : ℕ) : ℝ) / (epochs : ℝ) +
                     randAcc (s.trainingProgress + 1) * 0.1)] } := by
      unfold tick
      rw [if_neg (by omega), if_neg hlt]
    have ha : (tick epochs randLoss randAcc s).activeTimers = 1 := by
      rw [htick]; exact h1
    have hb : (tick epochs randLoss randAcc s).isTraining = true := by
      rw [htick]; exact h2
    have hc : (tick epochs randLoss randAcc s).trainingProgress + j < epochs := by
      rw [htick]
      show s.trainingProgress + 1 + j < epochs
      omega
    have key := ih (tick epochs randLoss randAcc s) ha hb hc
    simp only [runTicks]
    refine ⟨key.1, key.2.1, ?_, ?_, ?_, ?_⟩
    · rw [key.2.2.1, htick]
      show s.trainingProgress + 1 + j = s.trainingProgress + (j + 1)
      omega
    · rw [key.2.2.2.1, htick]
      simp only [List.length_append, List.length_cons, List.length_nil]
      omega
    · rw [key.2.2.2.2.1, htick]
      simp only [List.length_append, List.length_cons, List.length_nil]
      omega
    · rw [key.2.2.2.2.2, htick]

/-- A completed (or never started) run has no live interval, so a further
firing changes nothing. -/
lemma tick_of_no_timer (epochs : ℕ) (randLoss randAcc : ℕ → ℝ) (s : TrainingState)
    (h : s.activeTimers = 0) : tick epochs randLoss randAcc s = s := by
  unfold tick
  rw [if_pos h]

/-- Running a fresh training run with `epochs ≥ 1` to completion: the last
firing pushes the progress to `epochs`, flips `isTraining` off and clears
the interval, leaving `epochs - 1` entries in each series. -/
lemma runTicks_complete (epochs : ℕ) (randLoss randAcc : ℕ → ℝ) (s : TrainingState)
    (hE : 1 ≤ epochs) (hT : s.activeTimers = 0) :
    (runTicks epochs randLoss randAcc epochs (startTraining s)).trainingProgress = epochs ∧
    (runTicks epochs randLoss randAcc epochs (startTraining s)).isTraining = false ∧
    (runTicks epochs randLoss randAcc epochs (startTraining s)).activeTimers = 0 ∧
    (runTicks epochs randLoss randAcc epochs (startTraining s)).lossStats.length = epochs - 1 ∧
    (runTicks epochs randLoss randAcc epochs (startTraining s)).accStats.length = epochs - 1 ∧
    (runTicks epochs randLoss randAcc epochs (startTraining s)).predictions = s.predictions := by
  obtain ⟨k, rfl⟩ : ∃ k, epochs = k + 1 := ⟨epochs - 1, by omega⟩
  rw [runTicks_succ_back]
  have hstart : (startTraining s).activeTimers = 1 := by
    simp [startTraining, hT]
  have hpart := runTicks_midrun (k + 1) randLoss randAcc k (startTraining s) hstart
    (by simp [startTraining]) (by simp [startTraining])
  set m := runTicks (k + 1) randLoss randAcc k (startTraining s) with hm
  have hprog : m.trainingProgress = k := by
    rw [hpart.2.2.1]; simp [startTraining]
  have htick : tick (k + 1) randLoss randAcc m =
      { m with trainingProgress := k + 1, isTraining := false,
               activeTimers := m.activeTimers - 1 } := by
    unfold tick
    rw [if_neg (by omega), hprog, if_pos (by omega)]
  rw [htick]
  have hls : m.lossStats.length = k := by
    rw [hpart.2.2.2.1]; simp [startTraining]
  have has : m.accStats.length = k := by
    rw [hpart.2.2.2.2.1]; simp [startTraining]
  have hps : m.predictions = s.predictions := by
    rw [hpart.2.2.2.2.2]; simp [startTraining]
  exact ⟨rfl, rfl, by rw [hpart.1], by simpa using hls, by simpa using has, hps⟩

/-! ## Claim theorems -/

/-- Claim C1 (refuted by the code, supporting the code_bug verdict): after
`startTraining` and one firing, `stopTraining` leaves the interval
installed (`activeTimers = 1`) and a further firing still advances
`trainingProgress` to 2; `resetTraining` likewise leaves the interval
installed, so a firing after a reset advances the progress again; and a
second `startTraining` leaves two live intervals. -/
theorem stop_reset_start_leave_timer_live :
    (stopTraining (tick 10 (fun _ => 0) (fun _ => 0)
        (startTraining initialState))).activeTimers = 1 ∧
    (tick 10 (fun _ => 0) (fun _ => 0) (stopTraining (tick 10 (fun _ => 0) (fun _ => 0)
        (startTraining initialState)))).trainingProgress = 2 ∧
    (resetTraining (stopTraining (tick 10 (fun _ => 0) (fun _ => 0)
        (startTraining initialState)))).activeTimers = 1 ∧
    (tick 10 (fun _ => 0) (fun _ => 0) (resetTraining
        (startTraining initialState))).trainingProgress = 1 ∧
    (startTraining (startTraining initialState)).activeTimers = 2 := by
  refine ⟨rfl, ?_, rfl, ?_, rfl⟩
  · show (tick 10 (fun _ => 0) (fun _ => 0) (stopTraining (tick 10 (fun _ => 0) (fun _ => 0)
        (startTraining initialState)))).trainingProgress = 2
    norm_num [tick, startTraining, stopTraining, initialState]
  · norm_num [tick, startTraining, resetTraining, initialState]

/-- Claim C2 counterexample: a run with epochCount 10 driven to completion
has 9 entries in each series, not 10 — the final firing completes the run
without appending to the series. -/
theorem trainingRun_series_length_ne_epochs :
    (runTicks 10 (fun _ => 0) (fun _ => 0) 10 (startTraining initialState)).lossStats.length = 9 ∧
    (runTicks 10 (fun _ => 0) (fun _ => 0) 10 (startTraining initialState)).accStats.length = 9 ∧
    ¬ ((runTicks 10 (fun _ => 0) (fun _ => 0) 10
        (startTraining initialState)).lossStats.length = 10) := by
  have h := runTicks_complete 10 (fun _ => 0) (fun _ => 0) initialState (by norm_num) rfl
  refine ⟨?_, ?_, ?_⟩
  · rw [h.2.2.2.1]
  · rw [h.2.2.2.2.1]
  · rw [h.2.2.2.1]
    norm_num

/-- Claim C2 (amended): a fresh `TrainingRun` started with `epochCount =
E ≥ 1` and driven to completion receives exactly `E` firings; it ends with
`trainingProgress = E`, `isTraining = false` and the interval cleared, and
the loss and accuracy series each hold exactly `E - 1` entries (not `E`);
any further firing is a no-op. -/
theorem trainingRun_completes (epochs : ℕ) (randLoss randAcc : ℕ → ℝ) (s : TrainingState)
    (hE : 1 ≤ epochs) (hT : s.activeTimers = 0) :
    (runTicks epochs randLoss randAcc epochs (startTraining s)).trainingProgress = epochs ∧
    (runTicks epochs randLoss randAcc epochs (startTraining s)).isTraining = false ∧
    (runTicks epochs randLoss randAcc epochs (startTraining s)).activeTimers = 0 ∧
    (runTicks epochs randLoss randAcc epochs (startTraining s)).lossStats.length = epochs - 1 ∧
    (runTicks epochs randLoss randAcc epochs (startTraining s)).accStats.length = epochs - 1 ∧
    tick epochs randLoss randAcc (runTicks epochs randLoss randAcc epochs (startTraining s)) =
      runTicks epochs randLoss randAcc epochs (startTraining s) := by
  have h := runTicks_complete epochs randLoss randAcc s hE hT
  exact ⟨h.1, h.2.1, h.2.2.1, h.2.2.2.1, h.2.2.2.2.1,
    tick_of_no_timer epochs randLoss randAcc _ h.2.2.1⟩

/-- Witness for C2: the amended theorem evaluated at `epochCount = 2` on the
initial state. -/
theorem trainingRun_completes_witness :
    1 ≤ 2 ∧ initialState.activeTimers = 0 ∧
    (runTicks 2 (fun _ => 0) (fun _ => 0) 2 (startTraining initialState)).trainingProgress = 2 ∧
    (runTicks 2 (fun _ => 0) (fun _ => 0) 2 (startTraining initialState)).isTraining = false ∧
    (runTicks 2 (fun _ => 0) (fun _ => 0) 2 (startTraining initialState)).activeTimers = 0 ∧
    (runTicks 2 (fun _ => 0) (fun _ => 0) 2 (startTraining initialState)).lossStats.length = 1 :=
  have h := trainingRun_completes 2 (fun _ => 0) (fun _ => 0) initialState (by norm_num) rfl
  ⟨by norm_num, rfl, h.1, h.2.1, h.2.2.1, h.2.2.2.1⟩

/-- Claim C3 counterexample: on the default three-layer topology,
`handleAddLayer` appends the new hidden layer after the output layer, so
the resulting last layer has kind `hidden` and the invariant fails. -/
theorem addHiddenLayer_breaks_topologyInvariant :
    topologyInvariant defaultNetworkLayers ∧
    ¬ topologyInvariant (handleAddLayer defaultNetworkLayers) := by
  decide

/-- Claim C3 (amended): the invariant "first layer is `input`, last layer is
`output`" holds for the default topology and is preserved by every
`handleRemoveLayer` and `handleUpdateLayer` operation; `handleAddLayer`
keeps the first layer `input` but appends the default hidden layer at the
very end, after the output layer, so afterwards the last layer has kind
`hidden`. -/
theorem topology_ops_preserve_invariant (layers : List Layer) (h : topologyInvariant layers) :
    topologyInvariant defaultNetworkLayers ∧
    (∀ index, topologyInvariant (handleRemoveLayer index layers)) ∧
    (∀ index updates, topologyInvariant (handleUpdateLayer index updates layers)) ∧
    (handleAddLayer layers).head?.map Layer.type = some LayerKind.input ∧
    (handleAddLayer layers).getLast?.map Layer.type = some LayerKind.hidden := by
  have hne : layers ≠ [] := by
    intro hnil
    rw [hnil] at h
    simp [topologyInvariant] at h
  refine ⟨by decide, fun index => handleRemoveLayer_invariant index layers h,
    fun index updates => handleUpdateLayer_invariant index updates layers h, ?_, ?_⟩
  · unfold handleAddLayer
    rw [head?_append_left _ _ hne]
    exact h.1
  · unfold handleAddLayer
    rw [getLast?_append_right _ _ (by simp)]
    rfl

/-- Witness for C3: the amended theorem applied to the default topology with
a removal at index 1. -/
theorem topology_ops_preserve_invariant_witness :
    topologyInvariant defaultNetworkLayers ∧
    topologyInvariant (handleRemoveLayer 1 defaultNetworkLayers) :=
  ⟨by decide, (topology_ops_preserve_invariant defaultNetworkLayers (by decide)).2.1 1⟩

/-- Claim C4 counterexample: resetting while running does not transition to
idle — `isTraining` stays `true` and the interval stays installed. -/
theorem resetTraining_keeps_running :
    (resetTraining (startTraining initialState)).isTraining = true ∧
    (resetTraining (startTraining initialState)).activeTimers = 1 :=
  ⟨rfl, rfl⟩

/-- Claim C4 (amended): from every prior state, `resetTraining` zeroes
`trainingProgress` and clears the loss series, the accuracy series and the
stored predictions, but it leaves the running flag and the interval exactly
as they were (so a reset during a running run does not make it idle). -/
theorem resetTraining_clears_state (s : TrainingState) :
    (resetTraining s).trainingProgress = 0 ∧
    (resetTraining s).lossStats = [] ∧
    (resetTraining s).accStats = [] ∧
    (resetTraining s).predictions = [] ∧
    (resetTraining s).isTraining = s.isTraining ∧
    (resetTraining s).activeTimers = s.activeTimers :=
  ⟨rfl, rfl, rfl, rfl, rfl, rfl⟩

/-- Claim C5: `makePredictions` produces exactly one result per sample, in
sample order, with `predicted = min 1 (max 0 (actual + (draw * 0.3 -
0.15)))` — hence always in `[0, 1]` — and the calling surface disables the
operation exactly when `trainingProgress = 0`. -/
theorem makePredictions_spec (dataset : Dataset) (rand : ℕ → ℝ) :
    (makePredictions dataset rand).length = dataset.inputs.length ∧
    (∀ i, i < dataset.inputs.length →
      (makePredictions dataset rand)[i]? = some
        { input := dataset.inputs.getD i [],
          actual := (dataset.outputs.getD i []).getD 0 0,
          predicted := min 1 (max 0
            ((dataset.outputs.getD i []).getD 0 0 + (rand i * 0.3 - 0.15))) }) ∧
    (∀ (i : ℕ) (p : PredictionResult), (makePredictions dataset rand)[i]? = some p →
      0 ≤ p.predicted ∧ p.predicted ≤ 1) ∧
    (∀ s : TrainingState, runPredictionsDisabled s = true ↔ s.trainingProgress = 0) := by
  refine ⟨makePredictions_length dataset rand,
    fun i hi => makePredictions_getElem dataset rand i hi, ?_, ?_⟩
  · intro i p hp
    have hi : i < (makePredictions dataset rand).length := by
      by_contra hle
      push_neg at hle
      rw [List.getElem?_eq_none hle] at hp
      exact Option.noConfusion hp
    rw [makePredictions_length] at hi
    rw [makePredictions_getElem dataset rand i hi] at hp
    have hep := Option.some.inj hp
    have : p.predicted = min 1 (max 0
        ((dataset.outputs.getD i []).getD 0 0 + (rand i * 0.3 - 0.15))) := by
      rw [← hep]
    rw [this]
    constructor
    · exact le_min (by norm_num) (le_max_left 0 _)
    · exact min_le_left 1 _
  · intro s
    unfold runPredictionsDisabled
    simp

/-- Witness for C5: the element formula evaluated at sample 0 of the XOR
dataset. -/
theorem makePredictions_spec_witness :
    (0 : ℕ) < (generateDataset "xor" (fun _ => 0) (fun _ => 0)).inputs.length ∧
    (makePredictions (generateDataset "xor" (fun _ => 0) (fun _ => 0)) (fun _ => 0))[(0 : ℕ)]? =
      some
        { input := (generateDataset "xor" (fun _ => 0) (fun _ => 0)).inputs.getD 0 [],
          actual :=
            ((generateDataset "xor" (fun _ => 0) (fun _ => 0)).outputs.getD 0 []).getD 0 0,
          predicted := min 1 (max 0
            (((generateDataset "xor" (fun _ => 0) (fun _ => 0)).outputs.getD 0 []).getD 0 0 +
              ((fun _ : ℕ => (0 : ℝ)) 0 * 0.3 - 0.15))) } :=
  have h : (0 : ℕ) < (generateDataset "xor" (fun _ => 0) (fun _ => 0)).inputs.length := by
    norm_num [generateDataset]
  ⟨h, (makePredictions_spec (generateDataset "xor" (fun _ => 0) (fun _ => 0))
    (fun _ => 0)).2.1 0 h⟩

/-- Claim C6: `generateDataset "xor"` returns exactly the canonical
four-sample XOR truth table with kind classification, and any identifier
other than `"xor"`, `"circle"`, `"sine"` yields that same XOR dataset. -/
theorem generateDataset_xor_and_fallback (randAngle randRadius : ℕ → ℝ) (id' : String)
    (h1 : id' ≠ "xor") (h2 : id' ≠ "circle") (h3 : id' ≠ "sine") :
    generateDataset "xor" randAngle randRadius =
      { inputs := [[0, 0], [0, 1], [1, 0], [1, 1]],
        outputs := [[0], [1], [1], [0]],
        type := DatasetKind.classification } ∧
    generateDataset id' randAngle randRadius = generateDataset "xor" randAngle randRadius := by
  unfold generateDataset
  rw [if_pos rfl, if_neg h1, if_neg h2, if_neg h3]
  exact ⟨rfl, rfl⟩

/-- Witness for C6: the fallback evaluated at the identifier `"custom"`. -/
theorem generateDataset_xor_and_fallback_witness :
    ("custom" ≠ "xor" ∧ "custom" ≠ "circle" ∧ "custom" ≠ "sine") ∧
    (generateDataset "xor" (fun _ => 0) (fun _ => 0) =
      { inputs := [[0, 0], [0, 1], [1, 0], [1, 1]],
        outputs := [[0], [1], [1], [0]],
        type := DatasetKind.classification } ∧
     generateDataset "custom" (fun _ => 0) (fun _ => 0) =
       generateDataset "xor" (fun _ => 0) (fun _ => 0)) :=
  ⟨⟨by decide, by decide, by decide⟩,
   generateDataset_xor_and_fallback (fun _ => 0) (fun _ => 0) "custom"
     (by decide) (by decide) (by decide)⟩

/-- Claim C7: for any radius draws in `[0, 1)`, `generateDataset "circle"`
returns exactly 100 classification samples; each input is the Cartesian
point at the drawn angle and radius, lies strictly inside the unit disk,
and is labelled 1 iff the drawn radius is below 0.5. -/
theorem generateDataset_circle_spec (randAngle randRadius : ℕ → ℝ)
    (hr : ∀ i, 0 ≤ randRadius i ∧ randRadius i < 1) :
    (generateDataset "circle" randAngle randRadius).type = DatasetKind.classification ∧
    (generateDataset "circle" randAngle randRadius).inputs.length = 100 ∧
    (generateDataset "circle" randAngle randRadius).outputs.length = 100 ∧
    ∀ i, i < 100 →
      (generateDataset "circle" randAngle randRadius).inputs[i]? =
        some [Real.cos (randAngle i * Real.pi * 2) * randRadius i,
              Real.sin (randAngle i * Real.pi * 2) * randRadius i] ∧
      (Real.cos (randAngle i * Real.pi * 2) * randRadius i) ^ 2 +
        (Real.sin (randAngle i * Real.pi * 2) * randRadius i) ^ 2 < 1 ∧
      (generateDataset "circle" randAngle randRadius).outputs[i]? =
        some [if randRadius i < 0.5 then (1 : ℝ) else 0] ∧
      (((generateDataset "circle" randAngle randRadius).outputs.getD i []).getD 0 0 = 1 ↔
        randRadius i < 0.5) := by
  have hds : generateDataset "circle" randAngle randRadius =
      { inputs := (List.range 100).map fun i =>
          [Real.cos (randAngle i * Real.pi * 2) * randRadius i,
           Real.sin (randAngle i * Real.pi * 2) * randRadius i],
        outputs := (List.range 100).map fun i => [if randRadius i < 0.5 then (1 : ℝ) else 0],
        type := DatasetKind.classification } := by
    unfold generateDataset
    rw [if_neg (by decide), if_pos rfl]
  rw [hds]
  refine ⟨rfl, by simp, by simp, ?_⟩
  intro i hi
  have hout : ((List.range 100).map
      fun i => [if randRadius i < 0.5 then (1 : ℝ) else 0])[i]? =
      some [if randRadius i < 0.5 then (1 : ℝ) else 0] := by
    simp [List.getElem?_range hi]
  refine ⟨by simp [List.getElem?_range hi], ?_, hout, ?_⟩
  · have hcs : Real.sin (randAngle i * Real.pi * 2) ^ 2 +
        Real.cos (randAngle i * Real.pi * 2) ^ 2 = 1 :=
      Real.sin_sq_add_cos_sq (randAngle i * Real.pi * 2)
    have h0 := (hr i).1
    have h1 := (hr i).2
    calc (Real.cos (randAngle i * Real.pi * 2) * randRadius i) ^ 2 +
        (Real.sin (randAngle i * Real.pi * 2) * randRadius i) ^ 2
        = (Real.sin (randAngle i * Real.pi * 2) ^ 2 +
           Real.cos (randAngle i * Real.pi * 2) ^ 2) * randRadius i ^ 2 := by ring
      _ = randRadius i ^ 2 := by rw [hcs]; ring
      _ < 1 := by nlinarith
  · simp only [List.getD_eq_getElem?_getD, hout, Option.getD_some, List.getElem?_cons_zero]
    by_cases hlt : randRadius i < 0.5
    · rw [if_pos hlt]
      exact iff_of_true rfl hlt
    · rw [if_neg hlt]
      exact iff_of_false (by norm_num) hlt

/-- Witness for C7: the circle generator with all draws 0 — hypotheses hold
and the shape facts follow. -/
theorem generateDataset_circle_spec_witness :
    (∀ i : ℕ, 0 ≤ (fun _ : ℕ => (0 : ℝ)) i ∧ (fun _ : ℕ => (0 : ℝ)) i < 1) ∧
    (generateDataset "circle" (fun _ => 0) (fun _ => 0)).type = DatasetKind.classification ∧
    (generateDataset "circle" (fun _ => 0) (fun _ => 0)).inputs.length = 100 :=
  have h : ∀ i : ℕ, 0 ≤ (fun _ : ℕ => (0 : ℝ)) i ∧ (fun _ : ℕ => (0 : ℝ)) i < 1 :=
    fun _ => ⟨le_refl 0, by norm_num⟩
  ⟨h, (generateDataset_circle_spec (fun _ => 0) (fun _ => 0) h).1,
    (generateDataset_circle_spec (fun _ => 0) (fun _ => 0) h).2.1⟩

/-- Claim C8: `generateDataset "sine"` returns exactly 100 regression
samples; the `i`-th input is `i / 100 * π * 2` (evenly spaced over
`[0, 2π)`) and the `i`-th output is its sine. -/
theorem generateDataset_sine_spec (randAngle randRadius : ℕ → ℝ) :
    (generateDataset "sine" randAngle randRadius).type = DatasetKind.regression ∧
    (generateDataset "sine" randAngle randRadius).inputs.length = 100 ∧
    (generateDataset "sine" randAngle randRadius).outputs.length = 100 ∧
    ∀ i : ℕ, i < 100 →
      (generateDataset "sine" randAngle randRadius).inputs[i]? =
        some [(i : ℝ) / 100 * Real.pi * 2] ∧
      (generateDataset "sine" randAngle randRadius).outputs[i]? =
        some [Real.sin ((i : ℝ) / 100 * Real.pi * 2)] := by
  have hds : generateDataset "sine" randAngle randRadius =
      { inputs := (List.range 100).map fun i : ℕ => [(i : ℝ) / 100 * Real.pi * 2],
        outputs := (List.range 100).map fun i : ℕ => [Real.sin ((i : ℝ) / 100 * Real.pi * 2)],
        type := DatasetKind.regression } := by
    unfold generateDataset
    rw [if_neg (by decide), if_neg (by decide), if_pos rfl]
  rw [hds]
  refine ⟨rfl, by simp, by simp, ?_⟩
  intro i hi
  exact ⟨by simp [List.getElem?_range hi], by simp [List.getElem?_range hi]⟩

/-- Witness for C8: the sine generator evaluated at sample 0. -/
theorem generateDataset_sine_spec_witness :
    (0 : ℕ) < 100 ∧
    (generateDataset "sine" (fun _ => 0) (fun _ => 0)).inputs[0]? =
      some [(0 : ℝ) / 100 * Real.pi * 2] ∧
    (generateDataset "sine" (fun _ => 0) (fun _ => 0)).outputs[0]? =
      some [Real.sin ((0 : ℝ) / 100 * Real.pi * 2)] := by
  have h := (generateDataset_sine_spec (fun _ => 0) (fun _ => 0)).2.2.2 0 (by norm_num)
  refine ⟨by norm_num, ?_, ?_⟩
  · rw [h.1]
    norm_num
  · rw [h.2]
    norm_num

/-- Claim C9: `handleRemoveLayer` at index 0 or at the last index is a
silent no-op; at an interior index it removes exactly that layer, keeping
the other layers in order. -/
theorem handleRemoveLayer_spec (layers : List Layer) (index : ℕ) :
    ((index = 0 ∨ index = layers.length - 1) → handleRemoveLayer index layers = layers) ∧
    (0 < index → index < layers.length - 1 →
      (handleRemoveLayer index layers).length = layers.length - 1 ∧
      handleRemoveLayer index layers = layers.take index ++ layers.drop (index + 1)) := by
  constructor
  · intro h
    unfold handleRemoveLayer
    rw [if_pos h]
  · intro h1 h2
    have hg : ¬ (index = 0 ∨ index = layers.length - 1) := by omega
    unfold handleRemoveLayer
    rw [if_neg hg]
    exact ⟨List.length_eraseIdx_of_lt (by omega),
      List.eraseIdx_eq_take_drop_succ layers index⟩

/-- Witness for C9: removal of the middle layer of the default topology. -/
theorem handleRemoveLayer_spec_witness :
    0 < 1 ∧ 1 < defaultNetworkLayers.length - 1 ∧
    (handleRemoveLayer 1 defaultNetworkLayers).length = defaultNetworkLayers.length - 1 ∧
    handleRemoveLayer 1 defaultNetworkLayers =
      defaultNetworkLayers.take 1 ++ defaultNetworkLayers.drop 2 :=
  ⟨by norm_num, by decide,
   (handleRemoveLayer_spec defaultNetworkLayers 1).2 (by norm_num) (by decide)⟩

/-- Claim C10: on the sine dataset, any sample whose actual output is at
most −0.15 gets `predicted = 0` exactly, for every admissible value of the
jitter draw — the clamp to `[0, 1]` makes the lower half of the sine curve
degenerate. -/
theorem sine_low_values_predict_zero (randAngle randRadius rand : ℕ → ℝ) (i : ℕ)
    (hi : i < 100) (hr0 : 0 ≤ rand i) (hr1 : rand i < 1)
    (ha : ((generateDataset "sine" randAngle randRadius).outputs.getD i []).getD 0 0 ≤
      -0.15) :
    ∃ p, (makePredictions (generateDataset "sine" randAngle randRadius) rand)[i]? = some p ∧
      p.predicted = 0 := by
  have hlen : (generateDataset "sine" randAngle randRadius).inputs.length = 100 :=
    (generateDataset_sine_spec randAngle randRadius).2.1
  refine ⟨_, makePredictions_getElem (generateDataset "sine" randAngle randRadius) rand i
    (by rw [hlen]; exact hi), ?_⟩
  show min 1 (max 0
    (((generateDataset "sine" randAngle randRadius).outputs.getD i []).getD 0 0 +
      (rand i * 0.3 - 0.15))) = 0
  have hz : ((generateDataset "sine" randAngle randRadius).outputs.getD i []).getD 0 0 +
      (rand i * 0.3 - 0.15) ≤ 0 := by nlinarith
  rw [max_eq_left hz, min_eq_right (by norm_num : (0 : ℝ) ≤ 1)]

/-- Witness for C10: sample 75 of the sine dataset has actual output
`sin (3π/2) = −1 ≤ −0.15`, and its prediction is exactly 0. -/
theorem sine_low_values_predict_zero_witness :
    ((generateDataset "sine" (fun _ => 0) (fun _ => 0)).outputs.getD 75 []).getD 0 0 ≤
      -0.15 ∧
    ∃ p, (makePredictions (generateDataset "sine" (fun _ => 0) (fun _ => 0))
        (fun _ => 0))[(75 : ℕ)]? = some p ∧ p.predicted = 0 := by
  have hout := ((generateDataset_sine_spec (fun _ => (0 : ℝ)) (fun _ => (0 : ℝ))).2.2.2 75
    (by norm_num)).2
  have harg : ((75 : ℕ) : ℝ) / 100 * Real.pi * 2 = Real.pi / 2 + Real.pi := by
    push_cast
    ring
  have hval : Real.sin (((75 : ℕ) : ℝ) / 100 * Real.pi * 2) = -1 := by
    rw [harg, Real.sin_add_pi, Real.sin_pi_div_two]
  have ha : ((generateDataset "sine" (fun _ => 0) (fun _ => 0)).outputs.getD 75 []).getD 0 0 ≤
      -0.15 := by
    simp only [List.getD_eq_getElem?_getD, hout, Option.getD_some, List.getElem?_cons_zero]
    rw [hval]
    norm_num
  exact ⟨ha, sine_low_values_predict_zero (fun _ => 0) (fun _ => 0) (fun _ => 0) 75
    (by norm_num) (by norm_num) (by norm_num) ha⟩

end NNViz
